import Mathlib

/-!
Verification of the photo-processing pipeline in `scripts/process_photos.py`.

Shallow embedding conventions:
* Python strings are modelled as `List Char` (`PyStr`); the helpers
  `stripPat`, `splitUnderscore`, `parseInt` model `str.replace(pat, "")`,
  `str.split("_")` and `int(...)` (the latter restricted to an optional
  sign followed by ASCII decimal digits; Python additionally tolerates
  surrounding whitespace and underscores between digits, inputs that are
  modelled as failures here — no claim depends on them).
* The filesystem is an explicit state record (`FState`): modification
  times are naturals, the current wall-clock is `FState.clock`, and a
  write stamps the written file with the current clock.
* Python exceptions are modelled with `Except PyErr`; an uncaught
  exception propagates, a `try`/`except` is a `match`.
* Floating point: `int(height * (max_width / float(width)))` is modelled
  as exact rational arithmetic truncated toward zero, i.e. Nat division
  `height * max_width / width`.  At every concrete input used below the
  IEEE-double computation agrees with the exact one.
-/

set_option maxRecDepth 4000

/-- Python strings are lists of characters. -/
abbrev PyStr := List Char

/-- Readability helper: a Lean string literal as a `PyStr`. -/
def str (s : String) : PyStr := s.toList

/-- The decimal digit character for `n < 10`. -/
def digitChar (n : Nat) : Char := Char.ofNat (48 + n)

/-- Fuel-driven digit expansion (structural recursion so that the kernel can
evaluate it; the fuel is irrelevant once it exceeds the number, see
`natCharsFuel_eq`). -/
def natCharsFuel : Nat → Nat → PyStr
  | 0, _ => []
  | fuel + 1, n =>
    if n < 10 then [digitChar n]
    else natCharsFuel fuel (n / 10) ++ [digitChar (n % 10)]

/-- The decimal digit characters of a natural number, most significant first
(the characters of Python `str(n)` for `n ≥ 0`). -/
def natChars (n : Nat) : PyStr := natCharsFuel (n + 1) n

/-- The characters of Python `str(n)` for an arbitrary integer. -/
def intChars (i : Int) : PyStr :=
  if i < 0 then '-' :: natChars i.natAbs else natChars i.toNat

/-- ASCII decimal digit test. -/
def isDigitC (c : Char) : Bool := 48 ≤ c.toNat && c.toNat ≤ 57

/-- Value of an ASCII digit character. -/
def digitVal (c : Char) : Nat := c.toNat - 48

/-- Accumulating decimal parser: fails on the first non-digit. -/
def parseDigitsAux : PyStr → Nat → Option Nat
  | [], acc => some acc
  | c :: cs, acc =>
    if isDigitC c then parseDigitsAux cs (acc * 10 + digitVal c) else none

/-- All-digits decimal parser; fails on the empty string. -/
def parseDigits (s : PyStr) : Option Nat :=
  if s.isEmpty then none else parseDigitsAux s 0

/-- Model of Python `int(str)`: an optional sign followed by decimal digits. -/
def parseInt (s : PyStr) : Option Int :=
  match s with
  | [] => none
  | c :: rest =>
    if c = '-' then (parseDigits rest).map (fun n => -(n : Int))
    else if c = '+' then (parseDigits rest).map (fun n => (n : Int))
    else (parseDigits (c :: rest)).map (fun n => (n : Int))

/-- Fuel-driven form of `stripPat` (structural recursion so that the kernel
can evaluate it; any fuel at least the string length gives the same result,
see `stripPatFuel_eq`). -/
def stripPatFuel (pat : PyStr) : Nat → PyStr → PyStr
  | 0, l => l
  | _, [] => []
  | fuel + 1, c :: cs =>
    if pat.isPrefixOf (c :: cs) then stripPatFuel pat fuel (cs.drop (pat.length - 1))
    else c :: stripPatFuel pat fuel cs

/-- Model of Python `s.replace(pat, "")`: delete every occurrence of `pat`,
scanning left to right (for a nonempty concrete `pat`). -/
def stripPat (pat s : PyStr) : PyStr := stripPatFuel pat s.length s

/-- Model of Python `s.split("_")` (which never returns an empty list). -/
def splitUnderscore : PyStr → List PyStr
  | [] => [[]]
  | c :: cs =>
    match splitUnderscore cs with
    | [] => [[]]
    | w :: ws => if c = '_' then [] :: w :: ws else (c :: w) :: ws

/-- Line 106 of the script: `f.replace('.jpg', '').replace('.JPG', '')`.
Note this deletes the two exact substrings only; mixed-case extensions such
as `.Jpg` are left in place. -/
def stripJpg (s : PyStr) : PyStr := stripPat (str ".JPG") (stripPat (str ".jpg") s)

/-- Lines 104-110 of the script, the body of the scan loop: strip the two
extension spellings, split on `_`, and when exactly two parts remain parse
the suffix with `int(...)`; any failure is a silent skip (`except: continue`). -/
def parseSeq (f : PyStr) : Option Int :=
  match splitUnderscore (stripJpg f) with
  | [_p, suffix] => parseInt suffix
  | _ => none

/-- `generate_photo_id(date_str, existing_files)` (lines 93-115): filenames
starting with the date token are scanned; parsed numeric suffixes are
collected; the result is `max + 1`, or `1` when nothing parsed. -/
def generate_photo_id (date_str : PyStr) (existing_files : List PyStr) : Int :=
  if ((existing_files.filter (fun f => date_str.isPrefixOf f)).isEmpty : Bool) then 1
  else
    match (existing_files.filter (fun f => date_str.isPrefixOf f)).filterMap parseSeq with
    | [] => 1
    | i :: is => is.foldl max i + 1

/-- Model of Python `datetime` values (only the fields the script uses). -/
structure PyDateTime where
  year : Nat
  month : Nat
  day : Nat
  hour : Nat
  minute : Nat
  second : Nat
deriving DecidableEq

/-- Zero-pad the decimal rendering of `n` on the left to width `k`. -/
def padZeros (k : Nat) (n : Nat) : PyStr :=
  List.replicate (k - (natChars n).length) '0' ++ natChars n

/-- `format_date_for_filename` (line 83): `strftime("%y%m%d")`. -/
def format_date_for_filename (d : PyDateTime) : PyStr :=
  padZeros 2 (d.year % 100) ++ padZeros 2 d.month ++ padZeros 2 d.day

/-- `format_date_for_frontmatter` (line 88): `strftime("%Y-%m-%d")`.
(`%Y` zero-padding is platform-dependent below year 1000; it agrees with
this model for all four-digit years.) -/
def format_date_for_frontmatter (d : PyDateTime) : PyStr :=
  padZeros 4 d.year ++ ('-' :: padZeros 2 d.month) ++ ('-' :: padZeros 2 d.day)

/-- The filename the script's docstring format `日期_{id}` with the fixed
`.jpg` extension would give to sequence number `n` for date token `date`. -/
def mkName (date : PyStr) (n : Int) : PyStr :=
  date ++ '_' :: (intChars n ++ str ".jpg")

/-- Modelled from the spec's words, for comparison with `generate_photo_id`
(the script has no such loop): probe the candidate name for existence and
increment until a free name is found.  Fuel bounds the loop by the number
of files plus one, enough since at most `fs.length` names are taken. -/
def probeFrom (date : PyStr) (fs : List PyStr) : Nat → Int → Int
  | 0, cand => cand
  | fuel + 1, cand =>
    if mkName date cand ∈ fs then probeFrom date fs fuel (cand + 1) else cand

/-- Modelled from the spec's words: the scan-derived candidate followed by
the existence probe. -/
def probeAllocator (date : PyStr) (fs : List PyStr) : Int :=
  probeFrom date fs (fs.length + 1) (generate_photo_id date fs)

/-- Lower-case an ASCII letter. -/
def lowerChar (c : Char) : Char :=
  if 'A' ≤ c ∧ c ≤ 'Z' then Char.ofNat (c.toNat + 32) else c

/-- Modelled from the claim's words "matching extensions case-insensitively":
drop a trailing `.jpg` in any mix of cases. -/
def stripExtCI (s : PyStr) : PyStr :=
  if (s.drop (s.length - 4)).map lowerChar = str ".jpg" then s.take (s.length - 4) else s

/-- Modelled from the claim's words: next sequence number with the extension
matched case-insensitively. -/
def nextSeqSpecCI (date : PyStr) (fs : List PyStr) : Int :=
  match ((fs.filter (fun f => date.isPrefixOf f)).filterMap (fun f =>
    match splitUnderscore (stripExtCI f) with
    | [_p, suffix] => parseInt suffix
    | _ => none)).max? with
  | none => 1
  | some m => m + 1

/-! ## Filesystem and pipeline model -/

/-- A resolved path: its components relative to the project root, and whether
`resolve().relative_to(PROJECT_ROOT)` succeeds (`inRoot`).  For a path outside
the root the components are not used by the script. -/
structure PyPath where
  parts : List PyStr
  inRoot : Bool
deriving DecidableEq

/-- An EXIF tag value: the script only distinguishes strings (`isinstance(date_str, str)`)
from everything else. -/
inductive ExifVal
  | str (v : PyStr)
  | other
deriving DecidableEq

/-- A source image on disk: resolved path, existence, modification time,
EXIF dictionary (`None` when `_getexif()` yields nothing or reading fails),
pixel dimensions and color mode. -/
structure Src where
  path : PyPath
  present : Bool
  mtime : Nat
  exif : Option (List (PyStr × ExifVal))
  width : Nat
  height : Nat
  mode : PyStr
deriving DecidableEq

/-- A generated thumbnail file in `THUMB_DIR`, keyed by its filename. -/
structure Thumb where
  name : PyStr
  mtime : Nat
  width : Nat
  height : Nat
  quality : Nat
deriving DecidableEq

/-- A collection record (`_photos/<base>.md`), keyed by the asset's stem:
the front-matter fields plus the trailing caption sentence. -/
structure RecordFile where
  title : PyStr
  dateStr : PyStr
  image : PyStr
  teaser : PyStr
  location : Option PyStr
  tags : Option (List PyStr)
  caption : PyStr
deriving DecidableEq

/-- The filesystem state the script reads and writes: the current wall clock
(stamped as mtime on writes), the thumbnail directory, the records directory
and the source images on disk. -/
structure FState where
  clock : Nat
  thumbs : List Thumb
  records : List (PyStr × RecordFile)
  sources : List Src
deriving DecidableEq

/-- Python exception kinds the script can raise. -/
inductive PyErr
  | attributeError
  | valueError
deriving DecidableEq

/-- `THUMB_MAX_WIDTH` (line 27). -/
def THUMB_MAX_WIDTH : Nat := 720

/-- `THUMB_QUALITY` (line 28). -/
def THUMB_QUALITY : Nat := 82

/-- `path_to_site_url` (lines 31-37): `"/" + rel_path.as_posix()`, a
`ValueError` when the path is outside the project root. -/
def path_to_site_url (p : PyPath) : Except PyErr PyStr :=
  if p.inRoot then .ok ('/' :: List.intercalate (str "/") p.parts) else .error .valueError

/-- `pathlib`'s stem of a single filename: everything before the last dot,
except that a name without a dot, or with the dot first, is unchanged. -/
def stemOf (name : PyStr) : PyStr :=
  match name.reverse.dropWhile (fun c => !(c == '.')) with
  | [] => name
  | _ :: rest => if rest.isEmpty then name else rest.reverse

/-- `rel_path.with_suffix('').parts`: the components with the extension
removed from the last one. -/
def withSuffixEmpty : List PyStr → List PyStr
  | [] => []
  | [x] => [stemOf x]
  | x :: xs => x :: withSuffixEmpty xs

/-- Line 132: `safe_name = "_".join(rel_path.with_suffix('').parts) + "_thumb.jpg"`. -/
def safe_name (p : PyPath) : PyStr :=
  List.intercalate (str "_") (withSuffixEmpty p.parts) ++ str "_thumb.jpg"

/-- Lines 142-147: the output dimensions of the resize step.  The scale is
applied only when `width > max_width`; the new height is Python
`max(int(height * (max_width / float(width))), 1)`, i.e. truncation, modelled
as exact Nat division. -/
def resizeDims (max_width w h : Nat) : Nat × Nat :=
  if max_width < w then (max_width, max (h * max_width / w) 1) else (w, h)

/-- Modelled from the claim's words: height `round(original_height × max_width
/ original_width)` with round-half-up, floored at one pixel. -/
def specRoundedHeight (max_width w h : Nat) : Nat :=
  max ((2 * (h * max_width) + w) / (2 * w)) 1

/-- Look up a thumbnail file by name. -/
def findThumb (name : PyStr) (l : List Thumb) : Option Thumb :=
  l.find? (fun t => t.name == name)

/-- Look up a record file by key. -/
def findRecord (k : PyStr) (l : List (PyStr × RecordFile)) : Option RecordFile :=
  (l.find? (fun p => p.1 == k)).map (fun p => p.2)

/-- The encode-and-save tail of `create_thumbnail` (lines 140-155): resize
when needed and write `thumbnail_path`, stamping it with the current clock
(overwriting any previous file of that name). -/
def encodeThumb (img : Src) (max_width quality : Nat) (name : PyStr) (st : FState) :
    Option PyStr × FState :=
  let wh := resizeDims max_width img.width img.height
  (some name,
    { st with thumbs :=
        { name := name, mtime := st.clock, width := wh.1, height := wh.2,
          quality := quality } :: st.thumbs.filter (fun t => !(t.name == name)) })

/-- `create_thumbnail` (lines 119-158): missing source or source outside the
project root yields no derivative; an existing derivative at least as new as
the source is returned unchanged; otherwise the derivative is (re)encoded. -/
def create_thumbnail (img : Src) (max_width quality : Nat) (st : FState) :
    Option PyStr × FState :=
  if !img.present then (none, st)
  else if !img.path.inRoot then (none, st)
  else
    match findThumb (safe_name img.path) st.thumbs with
    | some t =>
      if img.mtime ≤ t.mtime then (some (safe_name img.path), st)
      else encodeThumb img max_width quality (safe_name img.path) st
    | none => encodeThumb img max_width quality (safe_name img.path) st

/-- Parse `"%Y:%m:%d %H:%M:%S"` as `datetime.strptime` does: fixed-width
fields, with the value ranges `datetime` accepts (calendar-exact day-in-month
validation is simplified to `1..31`; no claim depends on it). -/
def parseExifDate : PyStr → Option PyDateTime
  | [y1, y2, y3, y4, a, m1, m2, b, d1, d2, sp, h1, h2, c, n1, n2, e, s1, s2] =>
    if (a = ':' ∧ b = ':' ∧ sp = ' ' ∧ c = ':' ∧ e = ':') ∧
        ([y1, y2, y3, y4, m1, m2, d1, d2, h1, h2, n1, n2, s1, s2].all isDigitC = true) then
      let y := digitVal y1 * 1000 + digitVal y2 * 100 + digitVal y3 * 10 + digitVal y4
      let mo := digitVal m1 * 10 + digitVal m2
      let da := digitVal d1 * 10 + digitVal d2
      let ho := digitVal h1 * 10 + digitVal h2
      let mi := digitVal n1 * 10 + digitVal n2
      let se := digitVal s1 * 10 + digitVal s2
      if 1 ≤ y ∧ 1 ≤ mo ∧ mo ≤ 12 ∧ 1 ≤ da ∧ da ≤ 31 ∧ ho ≤ 23 ∧ mi ≤ 59 ∧ se ≤ 59 then
        some ⟨y, mo, da, ho, mi, se⟩
      else none
    else none
  | _ => none

/-- The date fields tried in priority order (line 66). -/
def dateFields : List PyStr := [str "DateTimeOriginal", str "DateTimeDigitized", str "DateTime"]

/-- Dictionary lookup in the EXIF mapping (modelled as an association list). -/
def lookupExif (k : PyStr) (e : List (PyStr × ExifVal)) : Option ExifVal :=
  ((e.find? (fun p => p.1 == k)).map (fun p => p.2))

/-- One iteration of the loop in `get_date_from_exif`: a missing field, a
non-string value or a parse failure all fall through (`continue`). -/
def tryDateField (e : List (PyStr × ExifVal)) (field : PyStr) : Option PyDateTime :=
  match lookupExif field e with
  | some (.str v) => parseExifDate v
  | _ => none

/-- `get_date_from_exif` (lines 60-80): `None` for a missing or empty EXIF
dictionary, else the first field that is present, a string and parses. -/
def get_date_from_exif (exif : Option (List (PyStr × ExifVal))) : Option PyDateTime :=
  match exif with
  | none => none
  | some e => if e.isEmpty then none else (dateFields.filterMap (tryDateField e)).head?

/-- `create_collection_file` (lines 161-220).  Faithful points: `date_str`
is computed (line 168) before the url guard, so a `None` date raises
`AttributeError` out of the function; a path outside the root is caught and
yields `None` with no write; falsy (`None` or empty) location/tags are
omitted; the record for the stem key is overwritten, never merged.  The
result is the written key (the collection file path's stem). -/
def create_collection_file (img : Src) (dateObj : Option PyDateTime)
    (location : Option PyStr) (tags : Option (List PyStr)) (teaser_url : Option PyStr)
    (st : FState) : Except PyErr (Option PyStr × FState) :=
  let base_name := stemOf (img.path.parts.getLastD [])
  match dateObj with
  | none => .error .attributeError
  | some d =>
    let date_str := format_date_for_frontmatter d
    match path_to_site_url img.path with
    | .error _ => .ok (none, st)
    | .ok image_path_str =>
      let teaser := match teaser_url with
        | some t => if t.isEmpty then image_path_str else t
        | none => image_path_str
      let loc := match location with
        | some l => if l.isEmpty then none else some l
        | none => none
      let tgs := match tags with
        | some t => if t.isEmpty then none else some t
        | none => none
      let caption := str "拍摄于 " ++ date_str ++
        (match loc with | some l => str "，地点：" ++ l | none => []) ++ str "。"
      let rec0 : RecordFile :=
        { title := base_name, dateStr := date_str, image := image_path_str,
          teaser := teaser, location := loc, tags := tgs, caption := caption }
      .ok (some base_name,
        { st with records :=
            (base_name, rec0) :: st.records.filter (fun p => !(p.1 == base_name)) })

/-- The site url of a generated thumbnail (always inside the project root). -/
def thumbUrl (name : PyStr) : PyStr := str "/assets/images/photos/thumbs/" ++ name

/-- `process_single_image` (lines 222-252).  A missing file or a path outside
the project root returns the path unchanged (the `ValueError` is caught);
otherwise EXIF is read, the thumbnail attempted, and the collection file
written — an exception from `create_collection_file` propagates.  Note that
nothing here renames the image or calls `generate_photo_id`. -/
def process_single_image (img : Src) (tags : Option (List PyStr))
    (location : Option PyStr) (st : FState) : Except PyErr (PyPath × FState) :=
  if !img.present then .ok (img.path, st)
  else if !img.path.inRoot then .ok (img.path, st)
  else
    let dateObj := get_date_from_exif img.exif
    let tr := create_thumbnail img THUMB_MAX_WIDTH THUMB_QUALITY st
    match create_collection_file img dateObj location tags (tr.1.map thumbUrl) tr.2 with
    | .error err => .error err
    | .ok (_, st2) => .ok (img.path, st2)

/-- The per-file loop of `process_directory` (lines 281-282), over the
already-globbed, sorted list: an uncaught exception aborts the whole batch. -/
def process_images (imgs : List Src) (tags : Option (List PyStr))
    (location : Option PyStr) (st : FState) : Except PyErr FState :=
  match imgs with
  | [] => .ok st
  | i :: rest =>
    match process_single_image i tags location st with
    | .error err => .error err
    | .ok (_, st1) => process_images rest tags location st1

/-- Whether a filename matches one of the glob patterns of
`refresh_thumbnails` (line 294). -/
def hasImgExt (n : PyStr) : Bool :=
  [str ".jpg", str ".jpeg", str ".JPG", str ".JPEG", str ".png", str ".PNG"].any
    (fun e => e.isSuffixOf n)

/-- The originals `refresh_thumbnails` scans (lines 293-295): files directly
in `PHOTOS_DIR` (`p.parent == PHOTOS_DIR`, so the `thumbs` subdirectory is
excluded) with a matching extension. -/
def isTopLevelPhoto (s : Src) : Bool :=
  s.path.inRoot && s.path.parts.length == 4 &&
    s.path.parts.take 3 == [str "assets", str "images", str "photos"] &&
    hasImgExt (s.path.parts.getLastD [])

/-- `refresh_thumbnails` (lines 287-305) with the quality policy in effect as
a parameter (`THUMB_QUALITY` at the time of the run): regenerate thumbnails
for every top-level original, touching nothing else. -/
def refresh_thumbnails (quality : Nat) (st : FState) : FState :=
  (st.sources.filter isTopLevelPhoto).foldl
    (fun s p => (create_thumbnail p THUMB_MAX_WIDTH quality s).2) st

deriving instance DecidableEq for Except

/-! ## Concrete sample inputs used by the claim evaluations and witnesses -/

/-- A staged JPEG named `IMG_1234.jpg` carrying the EXIF capture date
`2024:03:15 10:20:00` (scenario A's input). -/
def img0 : Src :=
  { path := ⟨[str "assets", str "images", str "photos", str "_temp", str "IMG_1234.jpg"], true⟩,
    present := true, mtime := 5,
    exif := some [(str "DateTimeOriginal", .str (str "2024:03:15 10:20:00"))],
    width := 4000, height := 3000, mode := str "RGB" }

/-- A state with an empty photo directory, empty records, wall clock 10. -/
def st0 : FState := { clock := 10, thumbs := [], records := [], sources := [img0] }

/-- A staged image with no readable EXIF metadata (scenario C's input). -/
def imgNoExif : Src :=
  { path := ⟨[str "assets", str "images", str "photos", str "_temp", str "blank.jpg"], true⟩,
    present := true, mtime := 5, exif := none,
    width := 100, height := 100, mode := str "RGB" }

/-- A canonical top-level photo for the refresh-mode scenario. -/
def photoA : Src :=
  { path := ⟨[str "assets", str "images", str "photos", str "240101_1.jpg"], true⟩,
    present := true, mtime := 5, exif := none, width := 2000, height := 1000,
    mode := str "RGB" }

/-- A state where `photoA`'s thumbnail already exists, is fresh by mtime
(10 ≥ 5) and was encoded at the old quality setting 82. -/
def stA : FState :=
  { clock := 20, thumbs := [⟨safe_name photoA.path, 10, 720, 360, 82⟩],
    records := [], sources := [photoA] }

/-- Source `a_b/c.jpg` (inside the project root). -/
def srcAB : Src :=
  { path := ⟨[str "a_b", str "c.jpg"], true⟩, present := true, mtime := 5,
    exif := none, width := 100, height := 100, mode := str "RGB" }

/-- Source `a/b_c.jpg`, distinct from `srcAB` but flattening to the same
thumbnail name. -/
def srcBC : Src :=
  { path := ⟨[str "a", str "b_c.jpg"], true⟩, present := true, mtime := 7,
    exif := none, width := 200, height := 100, mode := str "RGB" }

/-- An empty state with wall clock 10. -/
def st10 : FState := { clock := 10, thumbs := [], records := [], sources := [] }

/-- A top-level photo whose thumbnail is present and fresh (used by the
thumbnail-idempotence witness). -/
def imgW4 : Src :=
  { path := ⟨[str "assets", str "images", str "photos", str "240101_1.jpg"], true⟩,
    present := true, mtime := 40, exif := none, width := 1000, height := 800,
    mode := str "RGB" }

/-- `imgW4`'s existing derivative, newer than the source (50 ≥ 40). -/
def tW4 : Thumb :=
  { name := safe_name imgW4.path, mtime := 50, width := 720, height := 576, quality := 82 }

/-- A state holding `tW4`, with wall clock 100. -/
def stW4 : FState := { clock := 100, thumbs := [tW4], records := [], sources := [imgW4] }

/-- The capture date 2024-03-15 10:20:00. -/
def dW7 : PyDateTime := ⟨2024, 3, 15, 10, 20, 0⟩

/-- An in-root image used by the record-overwrite witness. -/
def imgW7 : Src :=
  { path := ⟨[str "photos", str "x.jpg"], true⟩, present := true, mtime := 0,
    exif := none, width := 10, height := 10, mode := str "RGB" }

/-- An empty starting state for the record-overwrite witness. -/
def stW7 : FState := { clock := 0, thumbs := [], records := [], sources := [] }

/-- The result of the first record emission (tags `["a"]`) on `stW7`. -/
def c7run1 : Option PyStr × FState :=
  match create_collection_file imgW7 (some dW7) none (some [str "a"]) none stW7 with
  | .ok p => p
  | .error _ => (none, stW7)

/-- The result of the second record emission (tags `["b"]`) on the first's
state. -/
def c7run2 : Option PyStr × FState :=
  match create_collection_file imgW7 (some dW7) none (some [str "b"]) none c7run1.2 with
  | .ok p => p
  | .error _ => (none, c7run1.2)

/-- An image whose resolved path lies outside the project root. -/
def imgX8 : Src :=
  { path := ⟨[str "outside", str "pic.jpg"], false⟩, present := true, mtime := 3,
    exif := none, width := 50, height := 50, mode := str "RGB" }

/-! ## Lemmas about the decimal rendering and parsing model -/

theorem natCharsFuel_eq (f n : Nat) (h : n < f) : natCharsFuel f n = natChars n := by
  induction n using Nat.strong_induction_on generalizing f with
  | _ n ih =>
    match f, h with
    | f + 1, h =>
      by_cases h10 : n < 10
      · simp [natCharsFuel, natChars, h10]
      · have hdiv : n / 10 < n := Nat.div_lt_self (by omega) (by omega)
        simp only [natCharsFuel, natChars, h10, if_false]
        rw [ih (n / 10) hdiv (f := f) (by omega), ih (n / 10) hdiv (f := n) (by omega)]

theorem natChars_eq (n : Nat) :
    natChars n = if n < 10 then [digitChar n] else natChars (n / 10) ++ [digitChar (n % 10)] := by
  show (if n < 10 then [digitChar n] else natCharsFuel n (n / 10) ++ [digitChar (n % 10)]) = _
  by_cases h10 : n < 10
  · rw [if_pos h10, if_pos h10]
  · rw [if_neg h10, if_neg h10, natCharsFuel_eq n (n / 10) (by omega)]

theorem natChars_ne_nil (n : Nat) : natChars n ≠ [] := by
  rw [natChars_eq]
  split <;> simp

theorem digitChar_isDigit (d : Nat) (h : d < 10) : isDigitC (digitChar d) = true := by
  interval_cases d <;> decide

theorem digitVal_digitChar (d : Nat) (h : d < 10) : digitVal (digitChar d) = d := by
  interval_cases d <;> decide

theorem natChars_all_digits (n : Nat) : ∀ c ∈ natChars n, isDigitC c = true := by
  induction n using Nat.strong_induction_on with
  | _ n ih =>
    intro c hc
    rw [natChars_eq] at hc
    by_cases h10 : n < 10
    · simp only [h10, if_true, List.mem_singleton] at hc
      exact hc ▸ digitChar_isDigit n h10
    · simp only [h10, if_false, List.mem_append, List.mem_singleton] at hc
      rcases hc with hc | hc
      · exact ih (n / 10) (Nat.div_lt_self (by omega) (by omega)) c hc
      · exact hc ▸ digitChar_isDigit (n % 10) (Nat.mod_lt n (by omega))

theorem parseDigitsAux_append (a b : PyStr) (acc m : Nat)
    (h : parseDigitsAux a acc = some m) :
    parseDigitsAux (a ++ b) acc = parseDigitsAux b m := by
  induction a generalizing acc with
  | nil =>
    simp only [parseDigitsAux, Option.some.injEq] at h
    simp [h]
  | cons c cs ihc =>
    simp only [parseDigitsAux] at h ⊢
    by_cases hd : isDigitC c
    · rw [if_pos hd] at h ⊢
      exact ihc _ h
    · rw [if_neg hd] at h
      exact absurd h (by simp)

theorem parseDigitsAux_natChars (n : Nat) :
    ∀ acc, parseDigitsAux (natChars n) acc = some (acc * 10 ^ (natChars n).length + n) := by
  induction n using Nat.strong_induction_on with
  | _ n ih =>
    intro acc
    by_cases h10 : n < 10
    · rw [natChars_eq, if_pos h10]
      simp [parseDigitsAux, digitChar_isDigit n h10, digitVal_digitChar n h10]
    · have hdiv : n / 10 < n := Nat.div_lt_self (by omega) (by omega)
      have hmod : n % 10 < 10 := Nat.mod_lt n (by omega)
      rw [natChars_eq, if_neg h10]
      rw [parseDigitsAux_append _ _ acc _ (ih (n / 10) hdiv acc)]
      simp only [parseDigitsAux, digitChar_isDigit (n % 10) hmod, if_true,
        digitVal_digitChar (n % 10) hmod, List.length_append, List.length_cons,
        List.length_nil]
      congr 1
      have h10n : 10 * (n / 10) + n % 10 = n := Nat.div_add_mod n 10
      calc (acc * 10 ^ (natChars (n / 10)).length + n / 10) * 10 + n % 10
          = acc * (10 ^ (natChars (n / 10)).length * 10) + (10 * (n / 10) + n % 10) := by ring
        _ = acc * 10 ^ ((natChars (n / 10)).length + (0 + 1)) + n := by rw [h10n, pow_succ]
        _ = acc * 10 ^ ((natChars (n / 10)).length + 1) + n := by norm_num

theorem parseDigits_natChars (n : Nat) : parseDigits (natChars n) = some n := by
  have hne : (natChars n).isEmpty = false := by
    cases h : natChars n with
    | nil => exact absurd h (natChars_ne_nil n)
    | cons c cs => simp
  simp [parseDigits, hne, parseDigitsAux_natChars n 0]

theorem intChars_chars (i : Int) : ∀ c ∈ intChars i, c = '-' ∨ isDigitC c = true := by
  intro c hc
  unfold intChars at hc
  by_cases hneg : i < 0
  · rw [if_pos hneg] at hc
    rcases List.mem_cons.1 hc with h | h
    · exact Or.inl h
    · exact Or.inr (natChars_all_digits _ c h)
  · rw [if_neg hneg] at hc
    exact Or.inr (natChars_all_digits _ c hc)

theorem isDigitC_ne {c : Char} (h : isDigitC c = true) {d : Char}
    (hd : isDigitC d = false) : c ≠ d := by
  intro he
  rw [he, hd] at h
  exact Bool.false_ne_true h

theorem parseInt_intChars (i : Int) : parseInt (intChars i) = some i := by
  by_cases hneg : i < 0
  · rw [intChars, if_pos hneg]
    show (parseDigits (natChars i.natAbs)).map (fun n => -(n : Int)) = some i
    rw [parseDigits_natChars]
    show some (-(i.natAbs : Int)) = some i
    congr 1
    omega
  · rw [intChars, if_neg hneg]
    obtain ⟨c, cs, hcc⟩ : ∃ c cs, natChars i.toNat = c :: cs := by
      cases h : natChars i.toNat with
      | nil => exact absurd h (natChars_ne_nil _)
      | cons c cs => exact ⟨c, cs, rfl⟩
    have hdig : isDigitC c = true := natChars_all_digits _ c (by rw [hcc]; exact List.mem_cons_self c cs)
    have hne1 : c ≠ '-' := isDigitC_ne hdig (by decide)
    have hne2 : c ≠ '+' := isDigitC_ne hdig (by decide)
    rw [hcc]
    show (if c = '-' then (parseDigits cs).map (fun n => -(n : Int))
      else if c = '+' then (parseDigits cs).map (fun n => (n : Int))
      else (parseDigits (c :: cs)).map (fun n => (n : Int))) = some i
    rw [if_neg hne1, if_neg hne2, ← hcc, parseDigits_natChars]
    show some ((i.toNat : Int)) = some i
    congr 1
    omega

/-! ## Lemmas about the string-manipulation model -/

theorem stripPatFuel_eq (pat : PyStr) (f : Nat) (s : PyStr) (h : s.length ≤ f) :
    stripPatFuel pat f s = stripPat pat s := by
  induction f using Nat.strong_induction_on generalizing s with
  | _ f ih =>
    cases f with
    | zero =>
      have hs : s = [] := by
        cases s with
        | nil => rfl
        | cons c cs => simp at h
      subst hs
      rfl
    | succ f =>
      cases s with
      | nil => rfl
      | cons c cs =>
        have hlhs : stripPatFuel pat (f + 1) (c :: cs) =
            (if pat.isPrefixOf (c :: cs) then stripPatFuel pat f (cs.drop (pat.length - 1))
             else c :: stripPatFuel pat f cs) := rfl
        have hrhs : stripPat pat (c :: cs) =
            (if pat.isPrefixOf (c :: cs) then stripPatFuel pat cs.length (cs.drop (pat.length - 1))
             else c :: stripPatFuel pat cs.length cs) := rfl
        rw [hlhs, hrhs]
        have hd : (cs.drop (pat.length - 1)).length ≤ cs.length := by
          rw [List.length_drop]
          exact Nat.sub_le _ _
        have hcs : cs.length ≤ f := by
          simp only [List.length_cons] at h
          omega
        by_cases hp : pat.isPrefixOf (c :: cs)
        · rw [if_pos hp, if_pos hp, ih f (Nat.lt_succ_self f) _ (le_trans hd hcs),
            ih cs.length (Nat.lt_succ_of_le hcs) _ hd]
        · rw [if_neg hp, if_neg hp, ih f (Nat.lt_succ_self f) _ hcs,
            ih cs.length (Nat.lt_succ_of_le hcs) _ (le_refl _)]

theorem stripPat_cons (pat : PyStr) (c : Char) (cs : PyStr) :
    stripPat pat (c :: cs) =
      if pat.isPrefixOf (c :: cs) then stripPat pat (cs.drop (pat.length - 1))
      else c :: stripPat pat cs := by
  have hrhs : stripPat pat (c :: cs) =
      (if pat.isPrefixOf (c :: cs) then stripPatFuel pat cs.length (cs.drop (pat.length - 1))
       else c :: stripPatFuel pat cs.length cs) := rfl
  rw [hrhs]
  have hd : (cs.drop (pat.length - 1)).length ≤ cs.length := by
    rw [List.length_drop]
    exact Nat.sub_le _ _
  by_cases hp : pat.isPrefixOf (c :: cs)
  · rw [if_pos hp, if_pos hp, stripPatFuel_eq pat cs.length _ hd]
  · rw [if_neg hp, if_neg hp, stripPatFuel_eq pat cs.length cs (le_refl _)]

theorem isPrefixOf_head {p0 c : Char} {pr cs : PyStr}
    (h : (p0 :: pr).isPrefixOf (c :: cs) = true) : p0 = c := by
  simp [List.isPrefixOf] at h
  exact h.1

theorem isPrefixOf_self (l : PyStr) : l.isPrefixOf l = true := by
  induction l with
  | nil => rfl
  | cons c cs ihc => simp [List.isPrefixOf, ihc]

theorem isPrefixOf_append_self (a b : PyStr) : a.isPrefixOf (a ++ b) = true := by
  induction a with
  | nil => simp [List.isPrefixOf]
  | cons c cs ihc => simp [List.isPrefixOf, ihc]

theorem stripPat_not_mem {p0 : Char} {pr : PyStr} (s : PyStr) (h : p0 ∉ s) :
    stripPat (p0 :: pr) s = s := by
  induction s with
  | nil => rfl
  | cons c cs ihc =>
    have hne : ¬ (p0 :: pr).isPrefixOf (c :: cs) = true := fun hp =>
      h (by rw [isPrefixOf_head hp]; exact List.mem_cons_self c cs)
    rw [stripPat_cons, if_neg hne, ihc (fun hm => h (List.mem_cons_of_mem c hm))]

theorem stripPat_append {p0 : Char} (pr : PyStr) (s : PyStr) (h : p0 ∉ s) :
    stripPat (p0 :: pr) (s ++ p0 :: pr) = s := by
  induction s with
  | nil =>
    rw [List.nil_append, stripPat_cons, if_pos (isPrefixOf_self (p0 :: pr))]
    have hdrop : pr.drop ((p0 :: pr).length - 1) = [] := by
      simp [List.drop_length]
    rw [hdrop]
    rfl
  | cons c cs ihc =>
    have h1 : (c :: cs) ++ p0 :: pr = c :: (cs ++ p0 :: pr) := rfl
    have hne : ¬ (p0 :: pr).isPrefixOf (c :: (cs ++ p0 :: pr)) = true := fun hp =>
      h (by rw [isPrefixOf_head hp]; exact List.mem_cons_self _ _)
    rw [h1, stripPat_cons, if_neg hne, ihc (fun hm => h (List.mem_cons_of_mem c hm))]

theorem splitUnderscore_ne_nil (s : PyStr) : splitUnderscore s ≠ [] := by
  cases s with
  | nil => simp [splitUnderscore]
  | cons c cs =>
    cases h : splitUnderscore cs with
    | nil => simp [splitUnderscore, h]
    | cons w ws => by_cases hc : c = '_' <;> simp [splitUnderscore, h, hc]

theorem splitUnderscore_cons_eq (c : Char) (cs w : PyStr) (ws : List PyStr)
    (h : splitUnderscore cs = w :: ws) :
    splitUnderscore (c :: cs) = if c = '_' then [] :: w :: ws else (c :: w) :: ws := by
  show (match splitUnderscore cs with
    | [] => [[]]
    | w :: ws => if c = '_' then [] :: w :: ws else (c :: w) :: ws) = _
  rw [h]

theorem splitUnderscore_no_und (s : PyStr) (h : '_' ∉ s) : splitUnderscore s = [s] := by
  induction s with
  | nil => rfl
  | cons c cs ihc =>
    have hc : ¬ c = '_' := by
      intro he
      exact h (by rw [he]; exact List.mem_cons_self _ _)
    have ih2 : splitUnderscore cs = [cs] := ihc (fun hm => h (List.mem_cons_of_mem c hm))
    rw [splitUnderscore_cons_eq c cs cs [] ih2, if_neg hc]

theorem splitUnderscore_append (a b : PyStr) (h : '_' ∉ a) :
    splitUnderscore (a ++ '_' :: b) = a :: splitUnderscore b := by
  induction a with
  | nil =>
    cases hb : splitUnderscore b with
    | nil => exact absurd hb (splitUnderscore_ne_nil b)
    | cons w ws =>
      rw [List.nil_append, splitUnderscore_cons_eq '_' b w ws hb, if_pos rfl, ← hb]
  | cons c cs ihc =>
    have hc : ¬ c = '_' := by
      intro he
      exact h (by rw [he]; exact List.mem_cons_self _ _)
    have ih2 := ihc (fun hm => h (List.mem_cons_of_mem c hm))
    rw [List.cons_append, splitUnderscore_cons_eq c _ _ _ ih2, if_neg hc]

/-! ## Lemmas about the sequence-number scan -/

theorem parseSeq_mkName (date : PyStr) (hd : ∀ c ∈ date, isDigitC c = true) (n : Int) :
    parseSeq (mkName date n) = some n := by
  have hnd : '.' ∉ date ++ '_' :: intChars n := by
    intro hm
    rcases List.mem_append.1 hm with hm | hm
    · exact absurd (hd _ hm) (by decide)
    · rcases List.mem_cons.1 hm with hm | hm
      · exact absurd hm (by decide)
      · rcases intChars_chars n '.' hm with h | h
        · exact absurd h (by decide)
        · exact absurd h (by decide)
  have hassoc : mkName date n = (date ++ '_' :: intChars n) ++ str ".jpg" := by
    simp [mkName, List.append_assoc]
  have hsj : str ".jpg" = '.' :: ['j', 'p', 'g'] := by decide
  have hsJ : str ".JPG" = '.' :: ['J', 'P', 'G'] := by decide
  have h1 : stripPat (str ".jpg") (mkName date n) = date ++ '_' :: intChars n := by
    rw [hassoc, hsj]
    exact stripPat_append _ _ hnd
  have h2 : stripPat (str ".JPG") (date ++ '_' :: intChars n) = date ++ '_' :: intChars n := by
    rw [hsJ]
    exact stripPat_not_mem _ hnd
  have hund1 : '_' ∉ date := fun hm => absurd (hd _ hm) (by decide)
  have hund2 : '_' ∉ intChars n := by
    intro hm
    rcases intChars_chars n '_' hm with h | h
    · exact absurd h (by decide)
    · exact absurd h (by decide)
  unfold parseSeq stripJpg
  rw [h1, h2, splitUnderscore_append date (intChars n) hund1,
    splitUnderscore_no_und _ hund2]
  exact parseInt_intChars n

theorem self_le_foldl_max (l : List Int) (a : Int) : a ≤ l.foldl max a := by
  induction l generalizing a with
  | nil => exact le_refl a
  | cons c cs ihc => exact le_trans (le_max_left a c) (by rw [List.foldl_cons]; exact ihc _)

theorem le_foldl_max (l : List Int) (a x : Int) (h : x = a ∨ x ∈ l) :
    x ≤ l.foldl max a := by
  induction l generalizing a with
  | nil =>
    rcases h with h | h
    · exact h.le
    · exact absurd h (List.not_mem_nil x)
  | cons c cs ihc =>
    rw [List.foldl_cons]
    rcases h with h | h
    · exact le_trans (h ▸ le_max_left a c) (self_le_foldl_max cs (max a c))
    · rcases List.mem_cons.1 h with h | h
      · exact le_trans (h ▸ le_max_right a c) (self_le_foldl_max cs (max a c))
      · exact ihc (max a c) (Or.inr h)

theorem foldl_max_mem (l : List Int) (a : Int) : l.foldl max a = a ∨ l.foldl max a ∈ l := by
  induction l generalizing a with
  | nil => exact Or.inl rfl
  | cons c cs ihc =>
    rw [List.foldl_cons]
    rcases ihc (max a c) with h | h
    · rcases max_choice a c with hm | hm
      · exact Or.inl (by rw [h, hm])
      · exact Or.inr (by rw [h, hm]; exact List.mem_cons_self c cs)
    · exact Or.inr (List.mem_cons_of_mem c h)

theorem generate_photo_id_eq (date : PyStr) (fs : List PyStr) :
    generate_photo_id date fs =
      if (fs.filter (fun f => date.isPrefixOf f)).isEmpty then 1
      else
        match (fs.filter (fun f => date.isPrefixOf f)).filterMap parseSeq with
        | [] => 1
        | i :: is => is.foldl max i + 1 := rfl

theorem generate_photo_id_gt (date : PyStr) (fs : List PyStr) (f : PyStr) (k : Int)
    (hf : f ∈ fs) (hpre : date.isPrefixOf f = true) (hp : parseSeq f = some k) :
    k < generate_photo_id date fs := by
  have hmem : f ∈ fs.filter (fun f => date.isPrefixOf f) := List.mem_filter.2 ⟨hf, hpre⟩
  have hniE : (fs.filter (fun f => date.isPrefixOf f)).isEmpty = false := by
    cases hfl : fs.filter (fun f => date.isPrefixOf f) with
    | nil => rw [hfl] at hmem; exact absurd hmem (List.not_mem_nil f)
    | cons a as => simp
  have hk : k ∈ (fs.filter (fun f => date.isPrefixOf f)).filterMap parseSeq :=
    List.mem_filterMap.2 ⟨f, hmem, hp⟩
  rw [generate_photo_id_eq, hniE]
  simp only [Bool.false_eq_true, if_false]
  cases hids : (fs.filter (fun f => date.isPrefixOf f)).filterMap parseSeq with
  | nil => rw [hids] at hk; exact absurd hk (List.not_mem_nil k)
  | cons i is =>
    rw [hids] at hk
    have hle : k ≤ is.foldl max i := by
      rcases List.mem_cons.1 hk with h | h
      · exact le_foldl_max is i k (Or.inl h)
      · exact le_foldl_max is i k (Or.inr h)
    show k < is.foldl max i + 1
    omega

theorem generate_photo_id_ignores (date : PyStr) (fs : List PyStr) (g : PyStr)
    (h : date.isPrefixOf g = false ∨ parseSeq g = none) :
    generate_photo_id date (fs ++ [g]) = generate_photo_id date fs := by
  rcases h with h | h
  · rw [generate_photo_id_eq, generate_photo_id_eq, List.filter_append]
    simp [h]
  · by_cases hg : date.isPrefixOf g = true
    · have hfg : List.filter (fun f => date.isPrefixOf f) [g] = [g] := by
        simp [List.filter, hg]
      rw [generate_photo_id_eq, generate_photo_id_eq, List.filter_append, hfg,
        List.filterMap_append]
      have hpg : List.filterMap parseSeq [g] = [] := by
        simp [List.filterMap, h]
      rw [hpg, List.append_nil]
      have hne : (List.filter (fun f => date.isPrefixOf f) fs ++ [g]).isEmpty = false := by
        simp
      rw [hne]
      cases hfl : List.filter (fun f => date.isPrefixOf f) fs with
      | nil => simp
      | cons a as => simp
    · have hg' : date.isPrefixOf g = false := by
        cases hgg : date.isPrefixOf g with
        | false => rfl
        | true => exact absurd hgg hg
      rw [generate_photo_id_eq, generate_photo_id_eq, List.filter_append]
      simp [hg']

theorem padZeros_digits (k n : Nat) : ∀ c ∈ padZeros k n, isDigitC c = true := by
  intro c hc
  rcases List.mem_append.1 hc with hm | hm
  · rw [List.eq_of_mem_replicate hm]
    decide
  · exact natChars_all_digits n c hm

theorem format_date_digits (d : PyDateTime) :
    ∀ c ∈ format_date_for_filename d, isDigitC c = true := by
  intro c hc
  unfold format_date_for_filename at hc
  rcases List.mem_append.1 hc with hm | hm
  · rcases List.mem_append.1 hm with hm | hm
    · exact padZeros_digits _ _ c hm
    · exact padZeros_digits _ _ c hm
  · exact padZeros_digits _ _ c hm

theorem mkName_not_mem (date : PyStr) (hd : ∀ c ∈ date, isDigitC c = true)
    (fs : List PyStr) : mkName date (generate_photo_id date fs) ∉ fs := by
  intro hmem
  have hpre : date.isPrefixOf (mkName date (generate_photo_id date fs)) = true := by
    unfold mkName
    exact isPrefixOf_append_self date _
  have := generate_photo_id_gt date fs _ _ hmem hpre (parseSeq_mkName date hd _)
  omega

theorem probeAllocator_eq (date : PyStr) (hd : ∀ c ∈ date, isDigitC c = true)
    (fs : List PyStr) : probeAllocator date fs = generate_photo_id date fs := by
  unfold probeAllocator
  show (if mkName date (generate_photo_id date fs) ∈ fs then
      probeFrom date fs fs.length (generate_photo_id date fs + 1)
    else generate_photo_id date fs) = _
  rw [if_neg (mkName_not_mem date hd fs)]

/-! ## Lemmas about the thumbnail generator -/

theorem create_thumbnail_frame (img : Src) (mw q : Nat) (st : FState) :
    ((create_thumbnail img mw q st).2).records = st.records ∧
    ((create_thumbnail img mw q st).2).sources = st.sources ∧
    ((create_thumbnail img mw q st).2).clock = st.clock := by
  unfold create_thumbnail
  cases hp : img.present with
  | false => simp
  | true =>
    cases hr : img.path.inRoot with
    | false => simp
    | true =>
      simp only [Bool.not_true, Bool.false_eq_true, if_false]
      cases hf : findThumb (safe_name img.path) st.thumbs with
      | none => simp [encodeThumb]
      | some t =>
        by_cases hm : img.mtime ≤ t.mtime <;> simp [hm, encodeThumb]

theorem create_thumbnail_fresh (img : Src) (mw q : Nat) (st : FState) (t : Thumb)
    (hp : img.present = true) (hr : img.path.inRoot = true)
    (hf : findThumb (safe_name img.path) st.thumbs = some t)
    (hm : img.mtime ≤ t.mtime) :
    create_thumbnail img mw q st = (some (safe_name img.path), st) := by
  unfold create_thumbnail
  rw [hp, hr]
  simp only [Bool.not_true, Bool.false_eq_true, if_false]
  rw [hf]
  simp [hm]

theorem create_thumbnail_noop (img : Src) (mw q : Nat) (st : FState)
    (h : img.present = true → img.path.inRoot = true →
      ∃ t, findThumb (safe_name img.path) st.thumbs = some t ∧ img.mtime ≤ t.mtime) :
    (create_thumbnail img mw q st).2 = st := by
  cases hp : img.present with
  | false => simp [create_thumbnail, hp]
  | true =>
    cases hr : img.path.inRoot with
    | false => simp [create_thumbnail, hp, hr]
    | true =>
      obtain ⟨t, hf, hm⟩ := h hp hr
      rw [create_thumbnail_fresh img mw q st t hp hr hf hm]

theorem create_thumbnail_after_encode (img : Src) (mw q mw2 q2 : Nat) (st : FState)
    (hp : img.present = true) (hr : img.path.inRoot = true)
    (hclk : img.mtime ≤ st.clock) :
    create_thumbnail img mw2 q2 (encodeThumb img mw q (safe_name img.path) st).2 =
      (some (safe_name img.path), (encodeThumb img mw q (safe_name img.path) st).2) := by
  apply create_thumbnail_fresh img mw2 q2 _
      { name := safe_name img.path, mtime := st.clock,
        width := (resizeDims mw img.width img.height).1,
        height := (resizeDims mw img.width img.height).2, quality := q } hp hr
  · simp [encodeThumb, findThumb, List.find?]
  · exact hclk

/-! ## The claims -/

/-- C1 (code bug in the script): at scenario A's input — a JPEG named
`IMG_1234.jpg` with embedded capture date `2024:03:15 10:20:00`, no same-day
files on disk — processing does not rename the file: `process_single_image`
returns the original path, the record it writes is keyed by the original stem
`IMG_1234` (its date field is `2024-03-15`), and no `240315_1`-keyed record
or file exists, although the allocator, never invoked by the pipeline, would
have produced sequence 1 for the compact token `240315` as the claim (and the
script's own docstring) describe. -/
theorem C1_no_rename_eval :
    (process_single_image img0 none none st0).map
        (fun r => (r.1, (findRecord (str "IMG_1234") r.2.records).map (fun rf => rf.dateStr),
          findRecord (str "240315_1") r.2.records)) =
      .ok (img0.path, some (str "2024-03-15"), none) ∧
    img0.path.parts.getLastD [] = str "IMG_1234.jpg" ∧
    generate_photo_id (str "240315") [] = 1 ∧
    format_date_for_filename ⟨2024, 3, 15, 10, 20, 0⟩ = str "240315" ∧
    format_date_for_frontmatter ⟨2024, 3, 15, 10, 20, 0⟩ = str "2024-03-15" := by
  decide

/-- C2: for every capture date and every set of existing filenames, the name
built from the allocator's sequence number does not collide with any listed
file — including files that do not match the two-part naming pattern — and
the scan-only code agrees extensionally with the spec's probe-and-increment
allocator (the probe finds its first candidate already free). -/
theorem C2_allocator_no_collision (d : PyDateTime) (fs : List PyStr) :
    mkName (format_date_for_filename d) (generate_photo_id (format_date_for_filename d) fs) ∉ fs ∧
    probeAllocator (format_date_for_filename d) fs =
      generate_photo_id (format_date_for_filename d) fs :=
  ⟨mkName_not_mem _ (format_date_digits d) fs, probeAllocator_eq _ (format_date_digits d) fs⟩

/-- C2, witness: the no-collision and probe-agreement facts at the date
2024-03-15 over a directory holding a well-formed same-date name, a malformed
same-date name and an unrelated file. -/
theorem C2_allocator_no_collision_witness :
    mkName (format_date_for_filename ⟨2024, 3, 15, 10, 20, 0⟩)
        (generate_photo_id (format_date_for_filename ⟨2024, 3, 15, 10, 20, 0⟩)
          [str "240315_3.jpg", str "240315_x.jpg", str "notes.txt"]) ∉
      [str "240315_3.jpg", str "240315_x.jpg", str "notes.txt"] ∧
    probeAllocator (format_date_for_filename ⟨2024, 3, 15, 10, 20, 0⟩)
        [str "240315_3.jpg", str "240315_x.jpg", str "notes.txt"] =
      generate_photo_id (format_date_for_filename ⟨2024, 3, 15, 10, 20, 0⟩)
        [str "240315_3.jpg", str "240315_x.jpg", str "notes.txt"] :=
  C2_allocator_no_collision ⟨2024, 3, 15, 10, 20, 0⟩
    [str "240315_3.jpg", str "240315_x.jpg", str "notes.txt"]

/-- C3 (code bug in the script): at an image with no embedded metadata the
date is `None`, `format_date_for_frontmatter(None)` raises `AttributeError`
(line 168 runs before any guard), the exception escapes `process_single_image`
uncaught, and the batch loop aborts — no placeholder-dated record is written
and the remaining files are never processed. -/
theorem C3_missing_date_crash :
    process_single_image imgNoExif none none st0 = .error .attributeError ∧
    process_images [imgNoExif, img0] none none st0 = .error .attributeError := by
  decide

/-- C4: the freshness check of `create_thumbnail`: when the derivative exists
with modification time at least the source's, the existing path is returned
with the state unchanged (no re-encode); and for a source unchanged since
before the current clock, a second invocation returns exactly the first's
result and state, leaving the derivative and its modification time unchanged. -/
theorem C4_thumbnail_fresh_idempotent (img : Src) (mw q : Nat) (st : FState)
    (hclk : img.mtime ≤ st.clock) :
    (∀ t, findThumb (safe_name img.path) st.thumbs = some t → img.mtime ≤ t.mtime →
      img.present = true → img.path.inRoot = true →
      create_thumbnail img mw q st = (some (safe_name img.path), st)) ∧
    create_thumbnail img mw q (create_thumbnail img mw q st).2 =
      create_thumbnail img mw q st := by
  constructor
  · intro t hf hm hp hr
    exact create_thumbnail_fresh img mw q st t hp hr hf hm
  · cases hp : img.present with
    | false => simp [create_thumbnail, hp]
    | true =>
      cases hr : img.path.inRoot with
      | false => simp [create_thumbnail, hp, hr]
      | true =>
        cases hf : findThumb (safe_name img.path) st.thumbs with
        | some t =>
          by_cases hm : img.mtime ≤ t.mtime
          · rw [create_thumbnail_fresh img mw q st t hp hr hf hm,
              create_thumbnail_fresh img mw q st t hp hr hf hm]
          · have h1 : create_thumbnail img mw q st =
                encodeThumb img mw q (safe_name img.path) st := by
              unfold create_thumbnail
              rw [hp, hr]
              simp only [Bool.not_true, Bool.false_eq_true, if_false]
              rw [hf]
              simp [hm]
            rw [h1, create_thumbnail_after_encode img mw q mw q st hp hr hclk]
            rfl
        | none =>
          have h1 : create_thumbnail img mw q st =
              encodeThumb img mw q (safe_name img.path) st := by
            unfold create_thumbnail
            rw [hp, hr]
            simp only [Bool.not_true, Bool.false_eq_true, if_false]
            rw [hf]
          rw [h1, create_thumbnail_after_encode img mw q mw q st hp hr hclk]
          rfl

/-- C4, witness: the fresh-return and second-invocation facts at a concrete
state whose derivative (mtime 50) is newer than the source (mtime 40). -/
theorem C4_thumbnail_fresh_witness :
    (∀ t, findThumb (safe_name imgW4.path) stW4.thumbs = some t → imgW4.mtime ≤ t.mtime →
      imgW4.present = true → imgW4.path.inRoot = true →
      create_thumbnail imgW4 720 82 stW4 = (some (safe_name imgW4.path), stW4)) ∧
    create_thumbnail imgW4 720 82 (create_thumbnail imgW4 720 82 stW4).2 =
      create_thumbnail imgW4 720 82 stW4 :=
  C4_thumbnail_fresh_idempotent imgW4 720 82 stW4 (by decide)

/-- C5, counterexample: the scan is not case-insensitive on extensions.  For
date token `240315` and the single existing file `240315_2.Jpg`, the code's
`generate_photo_id` yields 1 (the `.Jpg` spelling is stripped by neither
`replace` call, so the suffix `2.Jpg` fails to parse and is ignored), while
the claimed case-insensitive scan yields 2 + 1 = 3. -/
theorem C5_case_counterexample :
    generate_photo_id (str "240315") [str "240315_2.Jpg"] = 1 ∧
    nextSeqSpecCI (str "240315") [str "240315_2.Jpg"] = 3 := by
  decide

/-- C5 (amended): with extensions recognised only in the two exact spellings
`.jpg` and `.JPG` (as the code's `replace` calls do), the allocator returns a
sequence number strictly greater than every parsed numeric suffix of a
prefix-matching name; it equals one more than some parsed suffix, or 1 when
none parse; and appending a file that lacks the date prefix or fails the
two-part-numeric parse never changes the result. -/
theorem C5_sequence_characterization (date : PyStr) (fs : List PyStr) :
    (∀ f ∈ fs, date.isPrefixOf f = true → ∀ k : Int, parseSeq f = some k →
      k < generate_photo_id date fs) ∧
    (generate_photo_id date fs = 1 ∨
      ∃ f ∈ fs, date.isPrefixOf f = true ∧
        parseSeq f = some (generate_photo_id date fs - 1)) ∧
    (∀ g : PyStr, date.isPrefixOf g = false ∨ parseSeq g = none →
      generate_photo_id date (fs ++ [g]) = generate_photo_id date fs) := by
  refine ⟨fun f hf hpre k hp => generate_photo_id_gt date fs f k hf hpre hp, ?_,
    fun g hg => generate_photo_id_ignores date fs g hg⟩
  rw [generate_photo_id_eq]
  by_cases he : (fs.filter (fun f => date.isPrefixOf f)).isEmpty = true
  · rw [if_pos he]
    exact Or.inl rfl
  · rw [if_neg he]
    cases hids : (fs.filter (fun f => date.isPrefixOf f)).filterMap parseSeq with
    | nil => exact Or.inl rfl
    | cons i is =>
      right
      have hmem : is.foldl max i ∈ i :: is := by
        rcases foldl_max_mem is i with h | h
        · rw [h]
          exact List.mem_cons_self i is
        · exact List.mem_cons_of_mem i h
      rw [← hids] at hmem
      obtain ⟨f, hf, hp⟩ := List.mem_filterMap.1 hmem
      obtain ⟨hffs, hfpre⟩ := List.mem_filter.1 hf
      refine ⟨f, hffs, hfpre, ?_⟩
      rw [hp]
      congr 1
      show is.foldl max i = is.foldl max i + 1 - 1
      omega

/-- C5, witness: the bound, for the parsed suffix 2 of `240315_2.jpg`, and
the ignore-invariance, for the unparsed `240315_9.Jpg`, at a concrete
directory. -/
theorem C5_sequence_witness :
    (2 : Int) < generate_photo_id (str "240315") [str "240315_2.jpg", str "240315_x.jpg"] ∧
    generate_photo_id (str "240315")
        ([str "240315_2.jpg", str "240315_x.jpg"] ++ [str "240315_9.Jpg"]) =
      generate_photo_id (str "240315") [str "240315_2.jpg", str "240315_x.jpg"] :=
  ⟨(C5_sequence_characterization (str "240315")
        [str "240315_2.jpg", str "240315_x.jpg"]).1
      (str "240315_2.jpg") (by decide) (by decide) 2 (by decide),
    (C5_sequence_characterization (str "240315")
        [str "240315_2.jpg", str "240315_x.jpg"]).2.2
      (str "240315_9.Jpg") (Or.inr (by decide))⟩

/-- C6, counterexample: for a 1440×7 source and maximum width 720 the code
computes `int(7 * 0.5) = 3` (truncation; the ratio 0.5 is exact in IEEE
arithmetic, so the float and rational computations agree), while the claimed
`round(7 × 720 / 1440) = round(3.5)` is 4. -/
theorem C6_round_counterexample :
    resizeDims 720 1440 7 = (720, 3) ∧ specRoundedHeight 720 1440 7 = 4 := by
  decide

/-- C6 (amended): the resize never upscales — width at most the maximum
preserves the source dimensions exactly — and a wider source downscales to the
maximum width with height `max(int(h·mw/w), 1)`, i.e. the exact quotient
truncated (not rounded), floored at one pixel. -/
theorem C6_resize_policy (mw w h : Nat) :
    (w ≤ mw → resizeDims mw w h = (w, h)) ∧
    (mw < w → resizeDims mw w h = (mw, max (h * mw / w) 1) ∧
      1 ≤ (resizeDims mw w h).2) := by
  constructor
  · intro hle
    rw [resizeDims, if_neg (by omega)]
  · intro hlt
    rw [resizeDims, if_pos hlt]
    exact ⟨rfl, le_max_right _ _⟩

/-- C6, witness: both branches at concrete sizes — a 600×400 source is kept
as is; a 1600×900 source becomes 720 wide with truncated height. -/
theorem C6_resize_witness :
    resizeDims 720 600 400 = (600, 400) ∧
    resizeDims 720 1600 900 = (720, max (900 * 720 / 1600) 1) :=
  ⟨(C6_resize_policy 720 600 400).1 (by decide),
    ((C6_resize_policy 720 1600 900).2 (by decide)).1⟩

/-- C7: record emission overwrites: writing the same asset's record twice
with different (nonempty) tag lists leaves a record holding exactly the second
list — never the concatenation of both. -/
theorem C7_overwrite_tags (img : Src) (d : PyDateTime) (loc : Option PyStr)
    (t1 t2 : List PyStr) (te1 te2 : Option PyStr) (st st1 st2 : FState)
    (r1 r2 : Option PyStr)
    (h1 : create_collection_file img (some d) loc (some t1) te1 st = .ok (r1, st1))
    (h2 : create_collection_file img (some d) loc (some t2) te2 st1 = .ok (r2, st2))
    (hroot : img.path.inRoot = true) (ht1 : t1 ≠ []) (ht2 : t2 ≠ []) :
    (findRecord (stemOf (img.path.parts.getLastD [])) st2.records).map
        (fun rf => rf.tags) = some (some t2) ∧
    (findRecord (stemOf (img.path.parts.getLastD [])) st2.records).map
        (fun rf => rf.tags) ≠ some (some (t1 ++ t2)) := by
  have ht2e : t2.isEmpty = false := by
    cases t2 with
    | nil => exact absurd rfl ht2
    | cons a as => rfl
  unfold create_collection_file at h2
  rw [path_to_site_url, if_pos hroot] at h2
  simp only [Except.ok.injEq, Prod.mk.injEq] at h2
  obtain ⟨_, hst2⟩ := h2
  constructor
  · rw [← hst2]
    simp [findRecord, List.find?, ht2e]
  · rw [← hst2]
    simp only [findRecord, List.find?, beq_self_eq_true, Option.map_some', ne_eq,
      Option.some.injEq, ht2e, Bool.false_eq_true, if_false]
    intro hcontra
    have hlen := congrArg List.length hcontra
    rw [List.length_append] at hlen
    have ht1len : t1.length ≠ 0 := fun h0 => ht1 (List.length_eq_zero.1 h0)
    omega

/-- C7, witness: emitting `imgW7`'s record with tags `["a"]` and then
`["b"]` leaves exactly the tags `["b"]`, not `["a", "b"]`. -/
theorem C7_overwrite_witness :
    (findRecord (stemOf (imgW7.path.parts.getLastD [])) c7run2.2.records).map
        (fun rf => rf.tags) = some (some [str "b"]) ∧
    (findRecord (stemOf (imgW7.path.parts.getLastD [])) c7run2.2.records).map
        (fun rf => rf.tags) ≠ some (some ([str "a"] ++ [str "b"])) :=
  C7_overwrite_tags imgW7 dW7 none [str "a"] [str "b"] none none stW7 c7run1.2 c7run2.2
    c7run1.1 c7run2.1 (by decide) (by decide) (by decide) (by decide) (by decide)

/-- C8: for an asset resolving outside the project root, processing returns
the path with the state entirely unchanged (no thumbnail, no record), record
emission alone aborts with no record written, and the batch continues with the
remaining files exactly as if the asset were skipped. -/
theorem C8_outside_root (img : Src) (tags : Option (List PyStr)) (loc : Option PyStr)
    (st : FState) (rest : List Src) (d : PyDateTime) (te : Option PyStr)
    (hr : img.path.inRoot = false) :
    process_single_image img tags loc st = .ok (img.path, st) ∧
    create_collection_file img (some d) loc tags te st = .ok (none, st) ∧
    process_images (img :: rest) tags loc st = process_images rest tags loc st := by
  have hps : process_single_image img tags loc st = .ok (img.path, st) := by
    cases hp : img.present with
    | true => simp [process_single_image, hp, hr]
    | false => simp [process_single_image, hp]
  refine ⟨hps, ?_, ?_⟩
  · unfold create_collection_file
    rw [path_to_site_url, if_neg (by rw [hr]; exact Bool.false_ne_true)]
  · show (match process_single_image img tags loc st with
      | .error err => .error err
      | .ok (_, st1) => process_images rest tags loc st1) = process_images rest tags loc st
    rw [hps]

/-- C8, witness: the unchanged-state, aborted-emission and batch-continuation
facts at a concrete out-of-root image. -/
theorem C8_outside_root_witness :
    process_single_image imgX8 none none st10 = .ok (imgX8.path, st10) ∧
    create_collection_file imgX8 (some dW7) none none none st10 = .ok (none, st10) ∧
    process_images [imgX8] none none st10 = process_images [] none none st10 :=
  C8_outside_root imgX8 none none st10 [] dW7 none (by decide)

/-- C9, counterexample: the refresh mode does not refresh a derivative after
a policy change.  In state `stA` the only top-level photo's thumbnail is fresh
by mtime but encoded at quality 82; a refresh run under the new quality 50
leaves the state — in particular the stored quality 82 — unchanged. -/
theorem C9_quality_counterexample :
    refresh_thumbnails 50 stA = stA ∧
    (findThumb (safe_name photoA.path) stA.thumbs).map (fun t => t.quality) = some 82 := by
  decide

/-- C9 (amended): the thumbnail-only maintenance mode never touches records,
original files or the clock, and when every top-level photo's derivative is
already fresh by modification time it is a complete no-op — stale or missing
derivatives are the only ones regenerated; a mere policy change (e.g. a new
quality setting) does not trigger regeneration. -/
theorem C9_refresh_frame (q : Nat) (st : FState) :
    (refresh_thumbnails q st).records = st.records ∧
    (refresh_thumbnails q st).sources = st.sources ∧
    (refresh_thumbnails q st).clock = st.clock ∧
    ((∀ p ∈ st.sources.filter isTopLevelPhoto, p.present = true →
        ∃ t, findThumb (safe_name p.path) st.thumbs = some t ∧ p.mtime ≤ t.mtime) →
      refresh_thumbnails q st = st) := by
  have hfold : ∀ (l : List Src) (s : FState),
      ((l.foldl (fun s p => (create_thumbnail p THUMB_MAX_WIDTH q s).2) s).records = s.records ∧
        (l.foldl (fun s p => (create_thumbnail p THUMB_MAX_WIDTH q s).2) s).sources = s.sources ∧
        (l.foldl (fun s p => (create_thumbnail p THUMB_MAX_WIDTH q s).2) s).clock = s.clock) := by
    intro l
    induction l with
    | nil => exact fun s => ⟨rfl, rfl, rfl⟩
    | cons p ps ih =>
      intro s
      rw [List.foldl_cons]
      obtain ⟨h1, h2, h3⟩ := ih (create_thumbnail p THUMB_MAX_WIDTH q s).2
      obtain ⟨g1, g2, g3⟩ := create_thumbnail_frame p THUMB_MAX_WIDTH q s
      exact ⟨h1.trans g1, h2.trans g2, h3.trans g3⟩
  refine ⟨(hfold _ st).1, (hfold _ st).2.1, (hfold _ st).2.2, ?_⟩
  intro hall
  have hnoop : ∀ (l : List Src),
      (∀ p ∈ l, p.present = true →
        ∃ t, findThumb (safe_name p.path) st.thumbs = some t ∧ p.mtime ≤ t.mtime) →
      l.foldl (fun s p => (create_thumbnail p THUMB_MAX_WIDTH q s).2) st = st := by
    intro l
    induction l with
    | nil => exact fun _ => rfl
    | cons p ps ih =>
      intro hl
      rw [List.foldl_cons,
        create_thumbnail_noop p THUMB_MAX_WIDTH q st
          (fun hp _ => hl p (List.mem_cons_self p ps) hp)]
      exact ih (fun p hp => hl p (List.mem_cons_of_mem _ hp))
  exact hnoop _ hall

/-- C9, witness: the frame facts and the all-fresh no-op at the concrete
state `stA` under the changed quality setting 50. -/
theorem C9_refresh_witness :
    (refresh_thumbnails 50 stA).records = stA.records ∧
    (refresh_thumbnails 50 stA).sources = stA.sources ∧
    (refresh_thumbnails 50 stA).clock = stA.clock ∧
    refresh_thumbnails 50 stA = stA :=
  ⟨(C9_refresh_frame 50 stA).1, (C9_refresh_frame 50 stA).2.1,
    (C9_refresh_frame 50 stA).2.2.1, (C9_refresh_frame 50 stA).2.2.2 (by decide)⟩

/-- C10: the thumbnail-path derivation is not injective: the distinct in-root
sources `a_b/c.jpg` and `a/b_c.jpg` flatten to the same name
`a_b_c_thumb.jpg`, and after generating the first source's thumbnail, a
request for the second returns the first's derivative unchanged — one
derivative stands in for (and would overwrite) the other's. -/
theorem C10_thumbnail_name_collision :
    safe_name srcAB.path = safe_name srcBC.path ∧
    srcAB.path ≠ srcBC.path ∧
    create_thumbnail srcBC 720 82 (create_thumbnail srcAB 720 82 st10).2 =
      (some (safe_name srcAB.path), (create_thumbnail srcAB 720 82 st10).2) := by
  decide

example : str "240315" = ['2', '4', '0', '3', '1', '5'] := by decide
example : generate_photo_id (str "240315") [] = 1 := by decide
example : generate_photo_id (str "240315") [str "240315_1.jpg", str "240315_7.JPG"] = 8 := by decide
example : generate_photo_id (str "240315") [str "240315_2.Jpg"] = 1 := by decide
example : nextSeqSpecCI (str "240315") [str "240315_2.Jpg"] = 3 := by decide
example : format_date_for_filename ⟨2024, 3, 15, 10, 20, 0⟩ = str "240315" := by decide
example : format_date_for_frontmatter ⟨2024, 3, 15, 10, 20, 0⟩ = str "2024-03-15" := by decide
example : probeAllocator (str "240315") [str "240315_3.jpg"] = 4 := by decide
example : mkName (str "240315") 4 = str "240315_4.jpg" := by decide
example : parseSeq (str "240315_12.jpg") = some 12 := by decide
example : parseSeq (str "240315_1_x.jpg") = none := by decide
